import Mathlib

/-!
# Verification of the areyougoing poll aggregation engine

A shallow embedding of the poll schema (`shared/src/lib.rs`) and the
server-side poll store (`server/src/main.rs`), together with theorems
settling the specification's claims about them.

Modelling conventions:
* Rust `u8`/`u16`/`u64`/`usize` values are modelled as `Nat` (all such
  values in this code are bounded by the sizes of in-memory collections,
  so wrap-around is unreachable).
* `HashMap` is modelled as an association list; `HashMap::insert` is an
  upsert that replaces the first binding of the key.
* A Rust panic (`.unwrap()` on a missing index) is modelled by `Option`:
  `none` is a panic, `some` a normal return.
* `DateTime<Utc>` is opaque to the engine and modelled as `Nat`.
-/

/-- The `Choice` from `shared/src/lib.rs`: an index into an options list, or a
yes/no answer. -/
inductive Choice
  | Index (n : Nat)
  | YesOrNo (b : Bool)
deriving DecidableEq, Repr

/-- The `FormResponse` from `shared/src/lib.rs`. -/
inductive FormResponse
  | ChooseOneOrNone (c : Option Choice)
  | ChooseOne (c : Choice)
  | ChooseMultiple (cs : List Choice)
  | RankedChoice (cs : List Choice)
deriving DecidableEq, Repr

/-- The `Form` from `shared/src/lib.rs`. -/
inductive Form
  | OneOrNone (options : List String)
  | One (options : List String)
  | Multiple (options : List String)
  | RankedChoice (options : List String)
  | YesNoNone
  | YesNo
deriving DecidableEq, Repr

/-- The `Question` from `shared/src/lib.rs`. -/
structure Question where
  prompt : String
  form : Form
deriving DecidableEq, Repr

/-- The `PollStatus` from `shared/src/lib.rs`. -/
inductive PollStatus
  | SeekingResponses
  | Closed
deriving DecidableEq, Repr

/-- The `Metric` from `shared/src/lib.rs`. -/
inductive Metric
  | SpecificResponses (question_index : Nat) (choice : Choice)
deriving DecidableEq, Repr

/-- The `MetricTracker` from `shared/src/lib.rs`. -/
structure MetricTracker where
  metric : Metric
  publicly_visible : Bool
deriving DecidableEq, Repr

/-- The `Progress` from `shared/src/lib.rs`. -/
inductive Progress
  | Count (n : Nat)
deriving DecidableEq, Repr

/-- The `Requirement` from `shared/src/lib.rs`. -/
inductive Requirement
  | AtLeast (metric_index : Nat) (minimum : Nat)
deriving DecidableEq, Repr

/-- The `PollResult` from `shared/src/lib.rs`. -/
structure PollResult where
  desc : String
  requirements : List Requirement
deriving DecidableEq, Repr

/-- The `ResultState` from `shared/src/lib.rs`. -/
structure ResultState where
  requirements_met : List Bool
  overall_met : Bool
deriving DecidableEq, Repr

/-- The `Poll` from `shared/src/lib.rs` (field order as in the source). -/
structure Poll where
  title : String
  description : String
  expiration : Option Nat
  announcement : Option String
  metric_trackers : List MetricTracker
  results : List PollResult
  status : PollStatus
  questions : List Question
deriving DecidableEq, Repr

/-- The per-respondent answer map `HashMap<String, Vec<FormResponse>>`,
modelled as an association list. -/
abbrev Responses := List (String × List FormResponse)

/-- Per-respondent contribution of one stored answer to a
`SpecificResponses` metric, following the `match` in
`Metric::calculate_progress`.  `none` models the panic of
`response_ordered_choices.get(0).unwrap()` on an empty ranked-choice
vector.  The `ChooseMultiple` arm adds one per matching element of the
vector, as the source's inner `for` loop does. -/
def respCount (metric_choice : Choice) : FormResponse → Option Nat
  | .ChooseOneOrNone none => some 0
  | .ChooseOneOrNone (some c) => some (if c = metric_choice then 1 else 0)
  | .ChooseOne c => some (if c = metric_choice then 1 else 0)
  | .ChooseMultiple cs => some (cs.countP (fun c => decide (c = metric_choice)))
  | .RankedChoice [] => none
  | .RankedChoice (c :: _) => some (if c = metric_choice then 1 else 0)

/-- The accumulation loop of `Metric::calculate_progress` over all
respondents.  `none` models a panic: `poll_response.get(question_index)
.unwrap()` when a respondent's answer vector is too short, or the
ranked-choice panic inside `respCount`. -/
def countResponses (question_index : Nat) (metric_choice : Choice) :
    Responses → Option Nat
  | [] => some 0
  | p :: rest => do
    let fr ← p.2.get? question_index
    let c ← respCount metric_choice fr
    let n ← countResponses question_index metric_choice rest
    pure (c + n)

/-- The `Metric::calculate_progress` from `shared/src/lib.rs`. -/
def Metric.calculate_progress (m : Metric) (responses : Responses) :
    Option Progress :=
  match m with
  | .SpecificResponses question_index choice =>
    (countResponses question_index choice responses).map Progress.Count

/-- The `Requirement::evaluate` from `shared/src/lib.rs`.  `none` models the
panic of `progresses.get(metric_index as usize).unwrap()`. -/
def Requirement.evaluate (r : Requirement) (progresses : List Progress) :
    Option Bool :=
  match r with
  | .AtLeast metric_index minimum =>
    match progresses.get? metric_index with
    | none => none
    | some (.Count count) => some (decide (minimum ≤ count))

/-- The `ResultState::from_result` from `shared/src/lib.rs`. -/
def ResultState.from_result (r : PollResult) : ResultState :=
  { requirements_met := List.replicate r.requirements.length false
    overall_met := false }

/-- The `PollData` from `server/src/main.rs`. -/
structure PollData where
  poll : Poll
  responses : Responses
  progresses : List Progress
  result_states : List ResultState
deriving DecidableEq, Repr

/-- Map an `Option`-valued function over a list, failing if any element
fails: the shape of `.iter().map(...).collect()` where the closure can
panic. -/
def mapOpt (f : α → Option β) : List α → Option (List β)
  | [] => some []
  | x :: xs => do
    let y ← f x
    let ys ← mapOpt f xs
    pure (y :: ys)

/-- One `ResultState` of `PollData::update_results`: the source collects
`requirements_met` by evaluating each requirement against the freshly
recomputed progresses and sets `overall_met` to the conjunction. -/
def computeResultState (progresses : List Progress) (r : PollResult) :
    Option ResultState := do
  let requirements_met ← mapOpt (fun req => req.evaluate progresses) r.requirements
  pure { requirements_met := requirements_met
         overall_met := requirements_met.all id }

/-- The `PollData::update_results` from `server/src/main.rs`: recompute all
progresses from the current responses, then all result states from the
new progresses. -/
def PollData.update_results (pd : PollData) : Option PollData := do
  let progresses ← mapOpt (fun t => t.metric.calculate_progress pd.responses)
    pd.poll.metric_trackers
  let result_states ← mapOpt (computeResultState progresses) pd.poll.results
  pure { pd with progresses := progresses, result_states := result_states }

/-! ## Serialized snapshot tokens

`Db::write` serializes the whole store with `ron` and `Db::get_from_file`
parses it back; `ron` is an external crate, so the serialized text is
modelled as a stream of tokens that the encoders below produce from the
store, field by field, in source declaration order. -/

/-- One token of the serialized snapshot. -/
inductive Token
  | tnat (n : Nat)
  | tstr (s : String)
deriving DecidableEq, Repr

/-- The snapshot file: `none` when no file exists. -/
abbrev Disk := Option (List Token)

def encNat (n : Nat) : List Token := [.tnat n]

def encBool (b : Bool) : List Token := [.tnat (if b then 1 else 0)]

def encStr (s : String) : List Token := [.tstr s]

def encOpt (enc : α → List Token) : Option α → List Token
  | none => [.tnat 0]
  | some a => .tnat 1 :: enc a

/-- Length-prefixed encoding of a sequence. -/
def encListT (enc : α → List Token) (l : List α) : List Token :=
  .tnat l.length :: (l.map enc).flatten

def encChoice : Choice → List Token
  | .Index n => .tnat 0 :: encNat n
  | .YesOrNo b => .tnat 1 :: encBool b

def encFormResponse : FormResponse → List Token
  | .ChooseOneOrNone c => .tnat 0 :: encOpt encChoice c
  | .ChooseOne c => .tnat 1 :: encChoice c
  | .ChooseMultiple cs => .tnat 2 :: encListT encChoice cs
  | .RankedChoice cs => .tnat 3 :: encListT encChoice cs

def encForm : Form → List Token
  | .OneOrNone options => .tnat 0 :: encListT encStr options
  | .One options => .tnat 1 :: encListT encStr options
  | .Multiple options => .tnat 2 :: encListT encStr options
  | .RankedChoice options => .tnat 3 :: encListT encStr options
  | .YesNoNone => [.tnat 4]
  | .YesNo => [.tnat 5]

def encQuestion (q : Question) : List Token :=
  encStr q.prompt ++ encForm q.form

def encPollStatus : PollStatus → List Token
  | .SeekingResponses => [.tnat 0]
  | .Closed => [.tnat 1]

def encMetric : Metric → List Token
  | .SpecificResponses question_index choice => encNat question_index ++ encChoice choice

def encMetricTracker (t : MetricTracker) : List Token :=
  encMetric t.metric ++ encBool t.publicly_visible

def encProgress : Progress → List Token
  | .Count n => encNat n

def encRequirement : Requirement → List Token
  | .AtLeast metric_index minimum => encNat metric_index ++ encNat minimum

def encPollResult (r : PollResult) : List Token :=
  encStr r.desc ++ encListT encRequirement r.requirements

def encResultState (rs : ResultState) : List Token :=
  encListT encBool rs.requirements_met ++ encBool rs.overall_met

def encPoll (p : Poll) : List Token :=
  encStr p.title ++ encStr p.description ++ encOpt encNat p.expiration ++
    encOpt encStr p.announcement ++ encListT encMetricTracker p.metric_trackers ++
    encListT encPollResult p.results ++ encPollStatus p.status ++
    encListT encQuestion p.questions

def encRespEntry (p : String × List FormResponse) : List Token :=
  encStr p.1 ++ encListT encFormResponse p.2

def encPollData (pd : PollData) : List Token :=
  encPoll pd.poll ++ encListT encRespEntry pd.responses ++
    encListT encProgress pd.progresses ++ encListT encResultState pd.result_states

def encDbEntry (p : Nat × PollData) : List Token :=
  encNat p.1 ++ encPollData p.2

def decNat : List Token → Option (Nat × List Token)
  | .tnat n :: ts => some (n, ts)
  | _ => none

def decBool : List Token → Option (Bool × List Token)
  | .tnat 0 :: ts => some (false, ts)
  | .tnat 1 :: ts => some (true, ts)
  | _ => none

def decStr : List Token → Option (String × List Token)
  | .tstr s :: ts => some (s, ts)
  | _ => none

def decOpt (dec : List Token → Option (α × List Token)) :
    List Token → Option (Option α × List Token)
  | .tnat 0 :: ts => some (none, ts)
  | .tnat 1 :: ts => (dec ts).map (fun p => (some p.1, p.2))
  | _ => none

/-- Decode exactly `n` consecutive elements. -/
def decCount (dec : List Token → Option (α × List Token)) :
    Nat → List Token → Option (List α × List Token)
  | 0, ts => some ([], ts)
  | n + 1, ts => do
    let (a, ts1) ← dec ts
    let (rest, ts2) ← decCount dec n ts1
    pure (a :: rest, ts2)

def decListT (dec : List Token → Option (α × List Token))
    (ts : List Token) : Option (List α × List Token) := do
  let (n, ts1) ← decNat ts
  decCount dec n ts1

def decChoice : List Token → Option (Choice × List Token)
  | .tnat 0 :: ts => (decNat ts).map (fun p => (.Index p.1, p.2))
  | .tnat 1 :: ts => (decBool ts).map (fun p => (.YesOrNo p.1, p.2))
  | _ => none

def decFormResponse : List Token → Option (FormResponse × List Token)
  | .tnat 0 :: ts => (decOpt decChoice ts).map (fun p => (.ChooseOneOrNone p.1, p.2))
  | .tnat 1 :: ts => (decChoice ts).map (fun p => (.ChooseOne p.1, p.2))
  | .tnat 2 :: ts => (decListT decChoice ts).map (fun p => (.ChooseMultiple p.1, p.2))
  | .tnat 3 :: ts => (decListT decChoice ts).map (fun p => (.RankedChoice p.1, p.2))
  | _ => none

def decForm : List Token → Option (Form × List Token)
  | .tnat 0 :: ts => (decListT decStr ts).map (fun p => (.OneOrNone p.1, p.2))
  | .tnat 1 :: ts => (decListT decStr ts).map (fun p => (.One p.1, p.2))
  | .tnat 2 :: ts => (decListT decStr ts).map (fun p => (.Multiple p.1, p.2))
  | .tnat 3 :: ts => (decListT decStr ts).map (fun p => (.RankedChoice p.1, p.2))
  | .tnat 4 :: ts => some (.YesNoNone, ts)
  | .tnat 5 :: ts => some (.YesNo, ts)
  | _ => none

def decQuestion (ts : List Token) : Option (Question × List Token) := do
  let (prompt, ts1) ← decStr ts
  let (form, ts2) ← decForm ts1
  pure (⟨prompt, form⟩, ts2)

def decPollStatus : List Token → Option (PollStatus × List Token)
  | .tnat 0 :: ts => some (.SeekingResponses, ts)
  | .tnat 1 :: ts => some (.Closed, ts)
  | _ => none

def decMetric (ts : List Token) : Option (Metric × List Token) := do
  let (question_index, ts1) ← decNat ts
  let (choice, ts2) ← decChoice ts1
  pure (.SpecificResponses question_index choice, ts2)

def decMetricTracker (ts : List Token) : Option (MetricTracker × List Token) := do
  let (metric, ts1) ← decMetric ts
  let (vis, ts2) ← decBool ts1
  pure (⟨metric, vis⟩, ts2)

def decProgress (ts : List Token) : Option (Progress × List Token) :=
  (decNat ts).map (fun p => (.Count p.1, p.2))

def decRequirement (ts : List Token) : Option (Requirement × List Token) := do
  let (metric_index, ts1) ← decNat ts
  let (minimum, ts2) ← decNat ts1
  pure (.AtLeast metric_index minimum, ts2)

def decPollResult (ts : List Token) : Option (PollResult × List Token) := do
  let (desc, ts1) ← decStr ts
  let (requirements, ts2) ← decListT decRequirement ts1
  pure (⟨desc, requirements⟩, ts2)

def decResultState (ts : List Token) : Option (ResultState × List Token) := do
  let (requirements_met, ts1) ← decListT decBool ts
  let (overall_met, ts2) ← decBool ts1
  pure (⟨requirements_met, overall_met⟩, ts2)

def decPoll (ts : List Token) : Option (Poll × List Token) := do
  let (title, ts1) ← decStr ts
  let (description, ts2) ← decStr ts1
  let (expiration, ts3) ← decOpt decNat ts2
  let (announcement, ts4) ← decOpt decStr ts3
  let (metric_trackers, ts5) ← decListT decMetricTracker ts4
  let (results, ts6) ← decListT decPollResult ts5
  let (status, ts7) ← decPollStatus ts6
  let (questions, ts8) ← decListT decQuestion ts7
  pure (⟨title, description, expiration, announcement, metric_trackers,
    results, status, questions⟩, ts8)

def decRespEntry (ts : List Token) : Option ((String × List FormResponse) × List Token) := do
  let (user, ts1) ← decStr ts
  let (rs, ts2) ← decListT decFormResponse ts1
  pure ((user, rs), ts2)

def decPollData (ts : List Token) : Option (PollData × List Token) := do
  let (poll, ts1) ← decPoll ts
  let (responses, ts2) ← decListT decRespEntry ts1
  let (progresses, ts3) ← decListT decProgress ts2
  let (result_states, ts4) ← decListT decResultState ts3
  pure (⟨poll, responses, progresses, result_states⟩, ts4)

def decDbEntry (ts : List Token) : Option ((Nat × PollData) × List Token) := do
  let (k, ts1) ← decNat ts
  let (pd, ts2) ← decPollData ts1
  pure ((k, pd), ts2)

/-! ## The poll store (`server/src/main.rs`) -/

/-- The `Db` from `server/src/main.rs`: the `HashMap<u64, PollData>` store,
modelled as an association list. -/
abbrev Db := List (Nat × PollData)

/-- Serialize the whole store: `encodeDb` is the token-level model of
`ron::ser::to_string_pretty` applied to the `Db`. -/
def encodeDb (db : Db) : List Token := encListT encDbEntry db

/-- The `HashMap::get` on the store. -/
def lookupDb : Db → Nat → Option PollData
  | [], _ => none
  | p :: rest, k => if p.1 = k then some p.2 else lookupDb rest k

/-- The `HashMap::insert` on the store: replace the binding if the key is
present, otherwise add it. -/
def insertDb : Db → Nat → PollData → Db
  | [], k, pd => [(k, pd)]
  | p :: rest, k, pd => if p.1 = k then (k, pd) :: rest else p :: insertDb rest k pd

/-- The `HashMap::insert` on a poll's response map (`poll_data.responses
.insert(user, responses)`): last write per user wins. -/
def upsert : Responses → String → List FormResponse → Responses
  | [], user, rs => [(user, rs)]
  | p :: rest, user, rs =>
    if p.1 = user then (user, rs) :: rest else p :: upsert rest user rs

/-- The `HashMap::get_mut` followed by a fallible in-place update of the
entry: `none` when the key is absent or the update panics. -/
def updateEntry : Db → Nat → (PollData → Option PollData) → Option Db
  | [], _, _ => none
  | p :: rest, k, f =>
    if p.1 = k then (f p.2).map (fun pd => (k, pd) :: rest)
    else (updateEntry rest k f).map (fun rest2 => p :: rest2)

/-- The `db.0.contains_key(&key)`. -/
def containsKey (db : Db) (k : Nat) : Bool := (lookupDb db k).isSome

/-- Largest key of the store (0 when empty); used only to justify
termination of the key-allocation loop. -/
def maxKey : Db → Nat
  | [] => 0
  | p :: rest => max p.1 (maxKey rest)

/-- The `loop` of `get_unused_key`, scanning upward from `k`. -/
def get_unused_key_from (db : Db) (k : Nat) : Nat :=
  if h : containsKey db k = true then get_unused_key_from db (k + 1) else k
termination_by maxKey db + 1 - k
decreasing_by
  have hle : k ≤ maxKey db := by
    induction db with
    | nil => simp [containsKey, lookupDb] at h
    | cons p rest ih =>
      simp only [containsKey, lookupDb] at h
      by_cases hk : p.1 = k
      · simp [maxKey, ← hk]
      · simp only [hk, if_false] at h
        exact le_trans (ih h) (by simp [maxKey])
  omega

/-- The `get_unused_key` from `server/src/main.rs`: the smallest key ≥ 1 not
in the store, by linear scan from 1. -/
def get_unused_key (db : Db) : Nat := get_unused_key_from db 1

/-- The `PollData` that `new_poll` inserts for a fresh poll: empty
responses, `Count(0)` per tracker, `ResultState::from_result` per
result. -/
def initPollData (poll : Poll) : PollData :=
  { poll := poll
    responses := []
    progresses := poll.metric_trackers.map (fun _ => Progress.Count 0)
    result_states := poll.results.map ResultState.from_result }

/-- The `CreatePollResult` is always `Success{key}` once the lock is held, so
the handler is modelled as returning the key.  The source handler inserts
the new `PollData` and returns without calling `Db::write`, so the disk
component is returned unchanged. -/
def new_poll (db : Db) (disk : Disk) (poll : Poll) : Nat × Db × Disk :=
  let key := get_unused_key db
  (key, insertDb db key (initPollData poll), disk)

/-- The `PollSubmissionResult` from `shared/src/lib.rs`. -/
inductive PollSubmissionResult
  | Success
  | Error
deriving DecidableEq, Repr

/-- The `Db::write` from `server/src/main.rs`: overwrite the snapshot file
with the serialization of the whole store. -/
def Db.write (db : Db) : Disk := some (encodeDb db)

/-- Parse a serialized snapshot back into a store, consuming the whole
token stream: the token-level model of `ron::de::from_str::<Db>`. -/
def decodeDb (ts : List Token) : Option Db := do
  let (entries, rest) ← decListT decDbEntry ts
  match rest with
  | [] => some entries
  | _ :: _ => none

/-- The `Db::get_from_file`: `none` when no file exists; a file that fails to
parse makes the source panic, also modelled by the decoder returning
`none` (never reached for files produced by `Db.write`). -/
def get_from_file (disk : Disk) : Option Db :=
  match disk with
  | none => none
  | some ts => decodeDb ts

/-- The `submit` handler from `server/src/main.rs`: if the key is present,
upsert the user's responses, recompute all derived state
(`update_results`; its panic propagates as `none`), write the snapshot
and answer `Success`; if the key is absent, answer `Error` leaving store
and disk unchanged. -/
def submit (db : Db) (disk : Disk) (poll_id : Nat) (user : String)
    (responses : List FormResponse) : Option (Db × Disk × PollSubmissionResult) :=
  if (lookupDb db poll_id).isSome then
    (updateEntry db poll_id (fun pd =>
        PollData.update_results { pd with responses := upsert pd.responses user responses })).map
      (fun db2 => (db2, Db.write db2, PollSubmissionResult.Success))
  else some (db, disk, PollSubmissionResult.Error)

/-- Store states reachable from the empty store through the two mutating
operations (`new_poll` and successful `submit`). -/
inductive Reachable : Db → Prop
  | empty : Reachable []
  | create (db : Db) (disk : Disk) (poll : Poll) :
      Reachable db → Reachable (new_poll db disk poll).2.1
  | submitted (db db2 : Db) (disk disk2 : Disk) (poll_id : Nat) (user : String)
      (responses : List FormResponse) (res : PollSubmissionResult) :
      Reachable db → submit db disk poll_id user responses = some (db2, disk2, res) →
      Reachable db2

/-! ## Definitions used to state the claims -/

/-- The count carried by a `Progress`. -/
def Progress.count : Progress → Nat
  | .Count n => n

/-- Specification-side counting rule (the table of §4.2, amended at
`ChooseMultiple`): the contribution of one stored answer to a metric.
`ChooseOneOrNone(Some c)` and `ChooseOne c` contribute 1 exactly when
`c` equals the metric's choice, `ChooseOneOrNone(None)` never
contributes, `RankedChoice cs` contributes 1 exactly when the rank-1
entry `cs[0]` equals the metric's choice, and `ChooseMultiple cs`
contributes the number of occurrences of the metric's choice in `cs`
(so a duplicated choice contributes more than once). -/
def specContribution (metric_choice : Choice) : FormResponse → Nat
  | .ChooseOneOrNone none => 0
  | .ChooseOneOrNone (some c) => if c = metric_choice then 1 else 0
  | .ChooseOne c => if c = metric_choice then 1 else 0
  | .ChooseMultiple cs => cs.countP (fun c => decide (c = metric_choice))
  | .RankedChoice [] => 0
  | .RankedChoice (c :: _) => if c = metric_choice then 1 else 0

/-- Specification-side total: the sum over respondents of the
contribution of their answer at the metric's question index. -/
def specCount (question_index : Nat) (metric_choice : Choice)
    (responses : Responses) : Nat :=
  (responses.map (fun p =>
    match p.2.get? question_index with
    | some fr => specContribution metric_choice fr
    | none => 0)).sum

/-- A respondent's stored answer vector has an entry at the metric's
question index, and that entry, if a ranked choice, is non-empty: the
condition under which `calculate_progress` does not panic on this
respondent. -/
def entryOk (question_index : Nat) (p : String × List FormResponse) : Bool :=
  match p.2.get? question_index with
  | some (FormResponse.RankedChoice cs) => !cs.isEmpty
  | some _ => true
  | none => false

/-- A well-shaped one-question poll: one `One` question, one tracker on
`Index 0` of question 0, one result requiring at least one such answer. -/
def pollA : Poll :=
  { title := "t"
    description := "d"
    expiration := none
    announcement := none
    metric_trackers := [⟨.SpecificResponses 0 (.Index 0), true⟩]
    results := [⟨"res", [.AtLeast 0 1]⟩]
    status := .SeekingResponses
    questions := [⟨"q", .One ["x", "y"]⟩] }

/-- A poll whose single question has the `Multiple` form, used to probe
shape validation of submissions. -/
def pollM : Poll :=
  { title := "m"
    description := ""
    expiration := none
    announcement := none
    metric_trackers := [⟨.SpecificResponses 0 (.Index 0), true⟩]
    results := []
    status := .SeekingResponses
    questions := [⟨"q", .Multiple ["a", "b"]⟩] }

/-- A poll with one result that has no requirements. -/
def pollNoReq : Poll :=
  { title := "t"
    description := ""
    expiration := none
    announcement := none
    metric_trackers := []
    results := [⟨"r", []⟩]
    status := .SeekingResponses
    questions := [] }

/-- The store holding exactly the freshly created `pollA` at key 1
(the store component produced by `new_poll [] none pollA`). -/
def dbA : Db := [(1, initPollData pollA)]

/-- The poll data of `pollA` after the submission of user "u" answering
`Index 0`: one response, count 1, the single requirement met. -/
def pdA2 : PollData :=
  { poll := pollA
    responses := [("u", [.ChooseOne (.Index 0)])]
    progresses := [.Count 1]
    result_states := [⟨[true], true⟩] }

/-- The `dbA` after that submission. -/
def dbA2 : Db := [(1, pdA2)]

/-! ## Round-trip of the serialized snapshot -/

theorem decNat_enc (n : Nat) (rest : List Token) :
    decNat (encNat n ++ rest) = some (n, rest) := rfl

theorem decBool_enc (b : Bool) (rest : List Token) :
    decBool (encBool b ++ rest) = some (b, rest) := by
  cases b <;> rfl

theorem decStr_enc (s : String) (rest : List Token) :
    decStr (encStr s ++ rest) = some (s, rest) := rfl

theorem decOpt_enc (dec : List Token → Option (α × List Token))
    (enc : α → List Token)
    (h : ∀ a rest, dec (enc a ++ rest) = some (a, rest)) (o : Option α)
    (rest : List Token) : decOpt dec (encOpt enc o ++ rest) = some (o, rest) := by
  cases o with
  | none => rfl
  | some a => simp [encOpt, decOpt, h]

theorem decCount_enc (dec : List Token → Option (α × List Token))
    (enc : α → List Token) (l : List α)
    (h : ∀ a ∈ l, ∀ rest, dec (enc a ++ rest) = some (a, rest))
    (rest : List Token) :
    decCount dec l.length ((l.map enc).flatten ++ rest) = some (l, rest) := by
  induction l with
  | nil => rfl
  | cons x xs ih =>
    simp only [List.map_cons, List.flatten_cons, List.length_cons,
      List.append_assoc]
    simp [decCount, h x (List.mem_cons_self x xs),
      ih (fun a ha rest2 => h a (List.mem_cons_of_mem x ha) rest2)]

theorem decListT_enc (dec : List Token → Option (α × List Token))
    (enc : α → List Token) (l : List α)
    (h : ∀ a ∈ l, ∀ rest, dec (enc a ++ rest) = some (a, rest))
    (rest : List Token) :
    decListT dec (encListT enc l ++ rest) = some (l, rest) := by
  simp [encListT, decListT, decNat, decCount_enc dec enc l h rest]

theorem decChoice_enc (c : Choice) (rest : List Token) :
    decChoice (encChoice c ++ rest) = some (c, rest) := by
  cases c with
  | Index n => rfl
  | YesOrNo b => cases b <;> rfl

theorem decFormResponse_enc (fr : FormResponse) (rest : List Token) :
    decFormResponse (encFormResponse fr ++ rest) = some (fr, rest) := by
  cases fr with
  | ChooseOneOrNone c =>
    simp [encFormResponse, decFormResponse,
      decOpt_enc decChoice encChoice (fun a r => decChoice_enc a r) c rest]
  | ChooseOne c => simp [encFormResponse, decFormResponse, decChoice_enc]
  | ChooseMultiple cs =>
    simp [encFormResponse, decFormResponse,
      decListT_enc decChoice encChoice cs (fun a _ r => decChoice_enc a r) rest]
  | RankedChoice cs =>
    simp [encFormResponse, decFormResponse,
      decListT_enc decChoice encChoice cs (fun a _ r => decChoice_enc a r) rest]

theorem decForm_enc (f : Form) (rest : List Token) :
    decForm (encForm f ++ rest) = some (f, rest) := by
  cases f with
  | OneOrNone options =>
    simp [encForm, decForm,
      decListT_enc decStr encStr options (fun a _ r => decStr_enc a r) rest]
  | One options =>
    simp [encForm, decForm,
      decListT_enc decStr encStr options (fun a _ r => decStr_enc a r) rest]
  | Multiple options =>
    simp [encForm, decForm,
      decListT_enc decStr encStr options (fun a _ r => decStr_enc a r) rest]
  | RankedChoice options =>
    simp [encForm, decForm,
      decListT_enc decStr encStr options (fun a _ r => decStr_enc a r) rest]
  | YesNoNone => rfl
  | YesNo => rfl

theorem decQuestion_enc (q : Question) (rest : List Token) :
    decQuestion (encQuestion q ++ rest) = some (q, rest) := by
  cases q with
  | mk prompt form =>
    simp [encQuestion, decQuestion, List.append_assoc, decStr_enc, decForm_enc]

theorem decPollStatus_enc (s : PollStatus) (rest : List Token) :
    decPollStatus (encPollStatus s ++ rest) = some (s, rest) := by
  cases s <;> rfl

theorem decMetric_enc (m : Metric) (rest : List Token) :
    decMetric (encMetric m ++ rest) = some (m, rest) := by
  cases m with
  | SpecificResponses question_index choice =>
    simp [encMetric, decMetric, encNat, decNat, List.append_assoc, decChoice_enc]

theorem decMetricTracker_enc (t : MetricTracker) (rest : List Token) :
    decMetricTracker (encMetricTracker t ++ rest) = some (t, rest) := by
  cases t with
  | mk metric vis =>
    simp [encMetricTracker, decMetricTracker, List.append_assoc, decMetric_enc,
      decBool_enc]

theorem decProgress_enc (p : Progress) (rest : List Token) :
    decProgress (encProgress p ++ rest) = some (p, rest) := by
  cases p with
  | Count n => rfl

theorem decRequirement_enc (r : Requirement) (rest : List Token) :
    decRequirement (encRequirement r ++ rest) = some (r, rest) := by
  cases r with
  | AtLeast metric_index minimum => rfl

theorem decPollResult_enc (r : PollResult) (rest : List Token) :
    decPollResult (encPollResult r ++ rest) = some (r, rest) := by
  cases r with
  | mk desc requirements =>
    simp [encPollResult, decPollResult, List.append_assoc, decStr_enc,
      decListT_enc decRequirement encRequirement requirements
        (fun a _ r2 => decRequirement_enc a r2)]

theorem decResultState_enc (rs : ResultState) (rest : List Token) :
    decResultState (encResultState rs ++ rest) = some (rs, rest) := by
  cases rs with
  | mk met overall =>
    simp [encResultState, decResultState, List.append_assoc,
      decListT_enc decBool encBool met (fun a _ r2 => decBool_enc a r2),
      decBool_enc]

theorem decPoll_enc (p : Poll) (rest : List Token) :
    decPoll (encPoll p ++ rest) = some (p, rest) := by
  cases p with
  | mk title description expiration announcement metric_trackers results
      status questions =>
    simp [encPoll, decPoll, List.append_assoc, decStr_enc,
      decOpt_enc decNat encNat (fun a r => decNat_enc a r) expiration,
      decOpt_enc decStr encStr (fun a r => decStr_enc a r) announcement,
      decListT_enc decMetricTracker encMetricTracker metric_trackers
        (fun a _ r => decMetricTracker_enc a r),
      decListT_enc decPollResult encPollResult results
        (fun a _ r => decPollResult_enc a r),
      decPollStatus_enc,
      decListT_enc decQuestion encQuestion questions
        (fun a _ r => decQuestion_enc a r)]

theorem decRespEntry_enc (p : String × List FormResponse) (rest : List Token) :
    decRespEntry (encRespEntry p ++ rest) = some (p, rest) := by
  cases p with
  | mk user rs =>
    simp [encRespEntry, decRespEntry, List.append_assoc, decStr_enc,
      decListT_enc decFormResponse encFormResponse rs
        (fun a _ r => decFormResponse_enc a r)]

theorem decPollData_enc (pd : PollData) (rest : List Token) :
    decPollData (encPollData pd ++ rest) = some (pd, rest) := by
  cases pd with
  | mk poll responses progresses result_states =>
    simp [encPollData, decPollData, List.append_assoc, decPoll_enc,
      decListT_enc decRespEntry encRespEntry responses
        (fun a _ r => decRespEntry_enc a r),
      decListT_enc decProgress encProgress progresses
        (fun a _ r => decProgress_enc a r),
      decListT_enc decResultState encResultState result_states
        (fun a _ r => decResultState_enc a r)]

theorem decDbEntry_enc (p : Nat × PollData) (rest : List Token) :
    decDbEntry (encDbEntry p ++ rest) = some (p, rest) := by
  cases p with
  | mk k pd =>
    simp [encDbEntry, decDbEntry, encNat, decNat, List.append_assoc,
      decPollData_enc]

theorem decodeDb_encodeDb (db : Db) : decodeDb (encodeDb db) = some db := by
  have h := decListT_enc decDbEntry encDbEntry db
    (fun a _ r => decDbEntry_enc a r) []
  rw [List.append_nil] at h
  simp [decodeDb, encodeDb, h]

/-! ## Store lemmas -/

theorem lookupDb_insertDb_self (db : Db) (k : Nat) (pd : PollData) :
    lookupDb (insertDb db k pd) k = some pd := by
  induction db with
  | nil => simp [insertDb, lookupDb]
  | cons p rest ih =>
    by_cases h : p.1 = k
    · simp [insertDb, h, lookupDb]
    · simp [insertDb, h, lookupDb, ih]

theorem lookupDb_insertDb_ne (db : Db) (k j : Nat) (pd : PollData)
    (hne : j ≠ k) : lookupDb (insertDb db k pd) j = lookupDb db j := by
  induction db with
  | nil =>
    simp only [insertDb, lookupDb]
    rw [if_neg (fun h : k = j => hne h.symm)]
  | cons p rest ih =>
    simp only [insertDb]
    by_cases h : p.1 = k
    · rw [if_pos h]
      simp only [lookupDb]
      rw [if_neg (fun h2 : k = j => hne h2.symm),
        if_neg (fun h2 : p.1 = j => hne (h ▸ h2).symm)]
    · rw [if_neg h]
      simp only [lookupDb]
      by_cases hj : p.1 = j
      · rw [if_pos hj, if_pos hj]
      · rw [if_neg hj, if_neg hj]
        exact ih

theorem updateEntry_lookup_eq (db db2 : Db) (k : Nat)
    (f : PollData → Option PollData) (h : updateEntry db k f = some db2) :
    ∃ pd pd2, lookupDb db k = some pd ∧ f pd = some pd2 ∧
      lookupDb db2 k = some pd2 := by
  induction db generalizing db2 with
  | nil => simp [updateEntry] at h
  | cons p rest ih =>
    by_cases hk : p.1 = k
    · rw [updateEntry, if_pos hk] at h
      rw [Option.map_eq_some'] at h
      obtain ⟨pd2, hfp, hdb2⟩ := h
      exact ⟨p.2, pd2, by simp [lookupDb, hk], hfp, by
        rw [← hdb2]; simp [lookupDb]⟩
    · rw [updateEntry, if_neg hk] at h
      rw [Option.map_eq_some'] at h
      obtain ⟨rest2, hrest, hdb2⟩ := h
      obtain ⟨pd, pd2, h1, h2, h3⟩ := ih rest2 hrest
      exact ⟨pd, pd2, by simp [lookupDb, hk, h1], h2, by
        rw [← hdb2]; simp [lookupDb, hk, h3]⟩

theorem updateEntry_lookup_ne (db db2 : Db) (k j : Nat)
    (f : PollData → Option PollData) (h : updateEntry db k f = some db2)
    (hne : j ≠ k) : lookupDb db2 j = lookupDb db j := by
  induction db generalizing db2 with
  | nil => simp [updateEntry] at h
  | cons p rest ih =>
    by_cases hk : p.1 = k
    · rw [updateEntry, if_pos hk] at h
      rw [Option.map_eq_some'] at h
      obtain ⟨pd2, _, hdb2⟩ := h
      subst hk
      rw [← hdb2]
      simp only [lookupDb]
      rw [if_neg (fun h2 : p.1 = j => hne h2.symm),
        if_neg (fun h2 : p.1 = j => hne h2.symm)]
    · rw [updateEntry, if_neg hk] at h
      rw [Option.map_eq_some'] at h
      obtain ⟨rest2, hrest, hdb2⟩ := h
      rw [← hdb2]
      by_cases hj : p.1 = j
      · simp [lookupDb, hj]
      · simp [lookupDb, hj, ih rest2 hrest]

theorem mapOpt_mem (f : α → Option β) (xs : List α) (ys : List β)
    (h : mapOpt f xs = some ys) (y : β) (hy : y ∈ ys) :
    ∃ x ∈ xs, f x = some y := by
  induction xs generalizing ys with
  | nil =>
    simp [mapOpt] at h
    subst h
    simp at hy
  | cons x xs ih =>
    simp only [mapOpt, Option.bind_eq_bind, Option.bind_eq_some] at h
    obtain ⟨y1, hy1, ys1, hys1, hcons⟩ := h
    simp only [Option.pure_def, Option.some.injEq] at hcons
    subst hcons
    rcases List.mem_cons.mp hy with rfl | hmem
    · exact ⟨x, List.mem_cons_self x xs, hy1⟩
    · obtain ⟨x2, hx2, hfx2⟩ := ih ys1 hys1 hmem
      exact ⟨x2, List.mem_cons_of_mem x hx2, hfx2⟩

theorem mapOpt_of_forall_some (f : α → Option β) (g : α → β) (xs : List α)
    (h : ∀ x ∈ xs, f x = some (g x)) : mapOpt f xs = some (xs.map g) := by
  induction xs with
  | nil => rfl
  | cons x xs ih =>
    simp [mapOpt, h x (List.mem_cons_self x xs),
      ih (fun a ha => h a (List.mem_cons_of_mem x ha))]

/-- The `update_results` only rewrites `progresses` and `result_states`, and
on success those fields hold exactly the recomputation from the (kept)
poll and responses. -/
theorem update_results_fields (pd pd2 : PollData)
    (h : pd.update_results = some pd2) :
    pd2.poll = pd.poll ∧ pd2.responses = pd.responses ∧
      mapOpt (fun t => t.metric.calculate_progress pd.responses)
        pd.poll.metric_trackers = some pd2.progresses ∧
      mapOpt (computeResultState pd2.progresses) pd.poll.results =
        some pd2.result_states := by
  unfold PollData.update_results at h
  simp only [Option.bind_eq_bind, Option.bind_eq_some] at h
  obtain ⟨prog, hprog, states, hstates, hpd2⟩ := h
  simp only [Option.pure_def, Option.some.injEq] at hpd2
  subst hpd2
  exact ⟨rfl, rfl, hprog, hstates⟩

/-- Recomputation is idempotent: a `PollData` produced by
`update_results` is a fixed point of `update_results`. -/
theorem update_results_idem (pd pd2 : PollData)
    (h : pd.update_results = some pd2) : pd2.update_results = some pd2 := by
  obtain ⟨hpoll, hresp, hprog, hstates⟩ := update_results_fields pd pd2 h
  unfold PollData.update_results
  rw [hpoll, hresp, hprog]
  simp only [Option.bind_eq_bind, Option.some_bind]
  rw [hstates]
  simp only [Option.some_bind]
  rw [← hpoll, ← hresp]
  rfl

theorem containsKey_le_maxKey (db : Db) (k : Nat)
    (h : containsKey db k = true) : k ≤ maxKey db := by
  induction db with
  | nil => simp [containsKey, lookupDb] at h
  | cons p rest ih =>
    simp only [containsKey, lookupDb] at h
    by_cases hk : p.1 = k
    · simp [maxKey, ← hk]
    · simp only [hk, if_false] at h
      exact le_trans (ih h) (by simp [maxKey])

theorem guk_from_spec (db : Db) : ∀ n k, maxKey db + 1 - k ≤ n →
    containsKey db (get_unused_key_from db k) = false ∧
      k ≤ get_unused_key_from db k ∧
      ∀ m, k ≤ m → m < get_unused_key_from db k → containsKey db m = true := by
  intro n
  induction n with
  | zero =>
    intro k hk
    have hc : containsKey db k = false := by
      cases hcc : containsKey db k with
      | false => rfl
      | true =>
        have := containsKey_le_maxKey db k hcc
        omega
    rw [get_unused_key_from, dif_neg (by simp [hc])]
    exact ⟨hc, le_refl k, fun m h1 h2 => by omega⟩
  | succ n ih =>
    intro k hk
    cases hc : containsKey db k with
    | false =>
      rw [get_unused_key_from, dif_neg (by simp [hc])]
      exact ⟨hc, le_refl k, fun m h1 h2 => by omega⟩
    | true =>
      rw [get_unused_key_from, dif_pos hc]
      have hle := containsKey_le_maxKey db k hc
      obtain ⟨h1, h2, h3⟩ := ih (k + 1) (by omega)
      refine ⟨h1, by omega, ?_⟩
      intro m hm1 hm2
      rcases Nat.eq_or_lt_of_le hm1 with heq | hlt
      · exact heq ▸ hc
      · exact h3 m hlt hm2

/-- The `get_unused_key` returns the smallest positive integer that is not a
key of the store. -/
theorem get_unused_key_spec (db : Db) :
    containsKey db (get_unused_key db) = false ∧ 1 ≤ get_unused_key db ∧
      ∀ m, 1 ≤ m → m < get_unused_key db → containsKey db m = true :=
  guk_from_spec db (maxKey db) 1 (by omega)

/-! ## Claims -/

theorem respCount_of_entryOk (question_index : Nat) (metric_choice : Choice)
    (p : String × List FormResponse) (h : entryOk question_index p = true) :
    ∃ fr, p.2.get? question_index = some fr ∧
      respCount metric_choice fr = some (specContribution metric_choice fr) := by
  unfold entryOk at h
  cases hfr : p.2.get? question_index with
  | none => rw [hfr] at h; simp at h
  | some fr =>
    rw [hfr] at h
    refine ⟨fr, rfl, ?_⟩
    cases fr with
    | ChooseOneOrNone c => cases c <;> rfl
    | ChooseOne c => rfl
    | ChooseMultiple cs => rfl
    | RankedChoice cs =>
      cases cs with
      | nil => simp at h
      | cons c tl => rfl

/-- C1 (amended): for every metric `SpecificResponses{question_index,
choice}` and every response map in which each respondent has an answer at
`question_index` (whose ranked-choice vector, if any, is non-empty),
`calculate_progress` returns `Count n` where `n` is the sum over
respondents of the §4.2 rule's contribution — with the `ChooseMultiple`
row counting once per occurrence of the choice in `cs`, so a respondent
whose vector duplicates the choice is counted more than once. -/
theorem calculate_progress_spec_count (question_index : Nat)
    (metric_choice : Choice) (responses : Responses)
    (h : ∀ p ∈ responses, entryOk question_index p = true) :
    Metric.calculate_progress (.SpecificResponses question_index metric_choice)
        responses =
      some (.Count (specCount question_index metric_choice responses)) := by
  have hs : countResponses question_index metric_choice responses =
      some (specCount question_index metric_choice responses) := by
    induction responses with
    | nil => rfl
    | cons p rest ih =>
      obtain ⟨fr, hfr, hrc⟩ :=
        respCount_of_entryOk question_index metric_choice p
          (h p (List.mem_cons_self p rest))
      simp only [countResponses, hfr, hrc, Option.bind_eq_bind, Option.some_bind]
      rw [ih (fun a ha => h a (List.mem_cons_of_mem p ha))]
      simp only [Option.some_bind, Option.pure_def, Option.some.injEq]
      have hfr2 : p.2[question_index]? = some fr := by
        rw [← List.get?_eq_getElem?]
        exact hfr
      simp [specCount, hfr2]
  simp only [Metric.calculate_progress]
  rw [hs]
  rfl

/-- C1 counterexample: a single respondent whose `ChooseMultiple`
vector contains the metric's choice twice is counted twice by
`calculate_progress`, not once per respondent as the claim states. -/
theorem calculate_progress_duplicate_counterexample :
    Metric.calculate_progress (.SpecificResponses 0 (.Index 0))
        [("a", [.ChooseMultiple [.Index 0, .Index 0]])] = some (.Count 2) ∧
      Metric.calculate_progress (.SpecificResponses 0 (.Index 0))
        [("a", [.ChooseMultiple [.Index 0, .Index 0]])] ≠ some (.Count 1) := by
  decide

/-- Witness for the amended C1 at a concrete three-respondent map. -/
theorem calculate_progress_spec_count_witness :
    Metric.calculate_progress (.SpecificResponses 0 (.Index 1))
        [("a", [.ChooseMultiple [.Index 0, .Index 1]]),
         ("b", [.ChooseOne (.Index 1)]),
         ("c", [.RankedChoice [.Index 1, .Index 0]])] =
      some (.Count (specCount 0 (.Index 1)
        [("a", [.ChooseMultiple [.Index 0, .Index 1]]),
         ("b", [.ChooseOne (.Index 1)]),
         ("c", [.RankedChoice [.Index 1, .Index 0]])])) :=
  calculate_progress_spec_count 0 (.Index 1)
    [("a", [.ChooseMultiple [.Index 0, .Index 1]]),
     ("b", [.ChooseOne (.Index 1)]),
     ("c", [.RankedChoice [.Index 1, .Index 0]])] (by decide)

/-- C3: at an out-of-range index, the source panics (modelled as
`none`) instead of returning a `ValidationError`: `calculate_progress`
with `question_index` 1 against a one-element answer vector, and
`Requirement.evaluate` with `metric_index` 0 against an empty progresses
slice. -/
theorem out_of_range_index_panics :
    Metric.calculate_progress (.SpecificResponses 1 (.Index 0))
        [("a", [.ChooseOne (.Index 0)])] = none ∧
      Requirement.evaluate (.AtLeast 0 1) [] = none := by
  decide

/-- C8: for `AtLeast{metric_index, minimum}` with `metric_index` in
range of the progresses slice, `evaluate` returns `true` iff the count
stored at `progresses[metric_index]` is at least `minimum`. -/
theorem evaluate_at_least_spec (metric_index minimum : Nat)
    (progresses : List Progress) (h : metric_index < progresses.length) :
    Requirement.evaluate (.AtLeast metric_index minimum) progresses =
      some (decide (minimum ≤ (progresses.get ⟨metric_index, h⟩).count)) := by
  simp only [Requirement.evaluate]
  rw [List.get?_eq_get h]
  cases hp : progresses.get ⟨metric_index, h⟩ with
  | Count n => simp [hp, Progress.count]

/-- Witness for C8 at `progresses = [Count 3]`, requirement
`AtLeast{0, 2}`. -/
theorem evaluate_at_least_spec_witness :
    Requirement.evaluate (.AtLeast 0 2) [.Count 3] =
      some (decide (2 ≤ (([Progress.Count 3].get ⟨0, by decide⟩).count))) :=
  evaluate_at_least_spec 0 2 [.Count 3] (by decide)

/-- C7 (amended): every `ResultState` built by `update_results` has
`overall_met` equal to the AND of its `requirements_met`, for every
requirement count including the empty case; `ResultState.from_result`
satisfies the same equation exactly when the result has at least one
requirement (its all-`false` initialization sets `overall_met` to
`false`, while the AND of an empty vector is vacuously `true`). -/
theorem overall_met_is_and :
    (∀ pd pd2 : PollData, pd.update_results = some pd2 →
      ∀ rs ∈ pd2.result_states, rs.overall_met = rs.requirements_met.all id) ∧
    (∀ r : PollResult, r.requirements ≠ [] →
      (ResultState.from_result r).overall_met =
        (ResultState.from_result r).requirements_met.all id) := by
  constructor
  · intro pd pd2 h rs hrs
    obtain ⟨-, -, -, hstates⟩ := update_results_fields pd pd2 h
    obtain ⟨r, -, hr⟩ := mapOpt_mem _ _ _ hstates rs hrs
    unfold computeResultState at hr
    simp only [Option.bind_eq_bind, Option.bind_eq_some, Option.pure_def,
      Option.some.injEq] at hr
    obtain ⟨met, -, hrs2⟩ := hr
    rw [← hrs2]
  · intro r hr
    unfold ResultState.from_result
    cases hreq : r.requirements with
    | nil => exact absurd hreq hr
    | cons a l => simp [hreq]

/-- C7 counterexample: `from_result` on a result with no requirements
produces `requirements_met = []` with `overall_met = false`, while the
vacuous AND of `[]` is `true`, so `overall_met = AND(requirements_met)`
fails for that engine-produced `ResultState`. -/
theorem overall_met_empty_counterexample :
    ¬ ((ResultState.from_result ⟨"r", []⟩).overall_met =
        (ResultState.from_result ⟨"r", []⟩).requirements_met.all id) := by
  decide

/-- Witness for the amended C7: both conjuncts applied at concrete
inputs (a one-requirement `from_result`, and the `ResultState` that
`update_results` computes for the fresh `pollA`). -/
theorem overall_met_is_and_witness :
    ((ResultState.from_result ⟨"r", [Requirement.AtLeast 0 1]⟩).overall_met =
      (ResultState.from_result
        ⟨"r", [Requirement.AtLeast 0 1]⟩).requirements_met.all id) ∧
    ((⟨[false], false⟩ : ResultState).overall_met =
      (⟨[false], false⟩ : ResultState).requirements_met.all id) :=
  ⟨overall_met_is_and.2 ⟨"r", [Requirement.AtLeast 0 1]⟩ (by decide),
   overall_met_is_and.1 (initPollData pollA)
     ⟨pollA, [], [.Count 0], [⟨[false], false⟩]⟩ (by decide)
     ⟨[false], false⟩ (by decide)⟩

/-- C9: loading the snapshot written for a store returns that store:
`get_from_file (Db.write db) = some db` for every store `db` (hence in
particular for every reachable one). -/
theorem load_save_roundtrip (db : Db) : get_from_file (Db.write db) = some db := by
  simp only [Db.write, get_from_file]
  exact decodeDb_encodeDb db

/-- C6: `new_poll` returns the smallest positive integer that is not
a key of the store (hence never a present key), and stores under it a
`PollData` with empty responses, `Count 0` for every tracker, and for
every result a `ResultState` with all-`false` `requirements_met` and
`overall_met = false`. -/
theorem new_poll_fresh_key_and_init (db : Db) (disk : Disk) (poll : Poll) :
    1 ≤ (new_poll db disk poll).1 ∧
      containsKey db (new_poll db disk poll).1 = false ∧
      (∀ m, 1 ≤ m → m < (new_poll db disk poll).1 → containsKey db m = true) ∧
      lookupDb (new_poll db disk poll).2.1 (new_poll db disk poll).1 =
        some (initPollData poll) ∧
      (initPollData poll).responses = [] ∧
      (initPollData poll).progresses =
        poll.metric_trackers.map (fun _ => Progress.Count 0) ∧
      (initPollData poll).result_states = poll.results.map (fun r =>
        { requirements_met := List.replicate r.requirements.length false
          overall_met := false }) := by
  obtain ⟨h1, h2, h3⟩ := get_unused_key_spec db
  exact ⟨h2, h1, h3, lookupDb_insertDb_self db (get_unused_key db) _,
    rfl, rfl, rfl⟩

theorem get_unused_key_nil : get_unused_key [] = 1 := by
  rw [get_unused_key, get_unused_key_from]
  simp [containsKey, lookupDb]

theorem new_poll_nil (disk : Disk) (poll : Poll) :
    new_poll [] disk poll = (1, [(1, initPollData poll)], disk) := by
  simp [new_poll, get_unused_key_nil, insertDb]

/-- C5: the `new_poll` handler returns without writing the snapshot:
starting from the persisted empty store, creating `pollM` leaves the disk
holding the serialization of the empty store, which still decodes to a
store without the new poll, while the in-memory store does hold it. -/
theorem new_poll_does_not_persist :
    (new_poll [] (Db.write []) pollM).2.2 = Db.write [] ∧
      get_from_file (Db.write []) = some [] ∧
      lookupDb (new_poll [] (Db.write []) pollM).2.1 1 =
        some (initPollData pollM) := by
  rw [new_poll_nil]
  refine ⟨rfl, ?_, ?_⟩ <;> decide

/-- C4: `submit` performs no shape validation: submitting a
`ChooseOne` answer to `pollM`, whose only question has the `Multiple`
form, returns `Success` (not an error) and changes the stored responses
and progresses of the poll. -/
theorem submit_accepts_mismatched_shape :
    (submit (new_poll [] none pollM).2.1 none 1 "u"
        [FormResponse.ChooseOne (Choice.Index 0)]).map
        (fun t => (lookupDb t.1 1, t.2.2)) =
      some (some { poll := pollM
                   responses := [("u", [FormResponse.ChooseOne (Choice.Index 0)])]
                   progresses := [Progress.Count 1]
                   result_states := [] }, PollSubmissionResult.Success) ∧
      lookupDb (new_poll [] none pollM).2.1 1 = some (initPollData pollM) ∧
      (initPollData pollM).responses = [] ∧
      (initPollData pollM).progresses = [Progress.Count 0] := by
  rw [new_poll_nil]
  decide

/-- C2 (amended): in every store state reachable via `new_poll` and
`submit`, each stored poll's derived state is either a fixed point of
recomputation (`update_results` returns it unchanged) or exactly the
`new_poll` initial state — in which case the progresses still equal the
recomputation from the (empty) responses, but the all-`false`
`result_states` may differ from the recomputation (e.g. for a result
with no requirements, or a requirement with `minimum = 0`). -/
theorem reachable_derived_consistent (db : Db) (hdb : Reachable db) :
    ∀ k pd, lookupDb db k = some pd →
      pd.update_results = some pd ∨
        (pd = initPollData pd.poll ∧
          mapOpt (fun t => t.metric.calculate_progress pd.responses)
            pd.poll.metric_trackers = some pd.progresses) := by
  induction hdb with
  | empty =>
    intro k pd hl
    simp [lookupDb] at hl
  | create db disk poll hdb ih =>
    intro k pd hl
    simp only [new_poll] at hl
    by_cases hk : k = get_unused_key db
    · subst hk
      rw [lookupDb_insertDb_self] at hl
      injection hl with hl
      subst hl
      right
      refine ⟨rfl, ?_⟩
      simp only [initPollData]
      apply mapOpt_of_forall_some _ (fun _ => Progress.Count 0)
      intro t ht
      cases hm : t.metric with
      | SpecificResponses qi c => rfl
    · rw [lookupDb_insertDb_ne db (get_unused_key db) k _ hk] at hl
      exact ih k pd hl
  | submitted db db2 disk disk2 poll_id user responses res hdb hsub ih =>
    intro k pd hl
    unfold submit at hsub
    by_cases hp : (lookupDb db poll_id).isSome
    · rw [if_pos hp] at hsub
      cases hup : updateEntry db poll_id (fun pd0 =>
          PollData.update_results
            { pd0 with responses := upsert pd0.responses user responses }) with
      | none => rw [hup] at hsub; simp at hsub
      | some db3 =>
        rw [hup] at hsub
        simp only [Option.map_some', Option.some.injEq, Prod.mk.injEq] at hsub
        obtain ⟨h1, -, -⟩ := hsub
        subst h1
        by_cases hk : k = poll_id
        · subst hk
          obtain ⟨pd0, pd2, hl0, hf, hl2⟩ := updateEntry_lookup_eq db db3 k _ hup
          rw [hl2] at hl
          injection hl with hl
          subst hl
          left
          exact update_results_idem _ pd2 hf
        · rw [updateEntry_lookup_ne db db3 poll_id k _ hup hk] at hl
          exact ih k pd hl
    · rw [if_neg hp] at hsub
      simp only [Option.some.injEq, Prod.mk.injEq] at hsub
      obtain ⟨h1, -, -⟩ := hsub
      subst h1
      exact ih k pd hl

/-- C2 counterexample: the state immediately after creating
`pollNoReq` (one result, no requirements) is reachable, stores
`result_states = [⟨[], false⟩]`, yet the exact recomputation from its
(empty) responses yields `result_states = [⟨[], true⟩]` — stale derived
state observable right after `create_poll`. -/
theorem create_poll_stale_result_counterexample :
    Reachable [(1, initPollData pollNoReq)] ∧
      lookupDb [(1, initPollData pollNoReq)] 1 = some (initPollData pollNoReq) ∧
      (initPollData pollNoReq).result_states = [⟨[], false⟩] ∧
      (initPollData pollNoReq).update_results =
        some { poll := pollNoReq
               responses := []
               progresses := []
               result_states := [⟨[], true⟩] } := by
  refine ⟨?_, by decide, by decide, by decide⟩
  have h := Reachable.create [] none pollNoReq Reachable.empty
  rw [new_poll_nil] at h
  exact h

/-- Witness for the amended C2 at the reachable store holding the fresh
`pollA`. -/
theorem reachable_derived_consistent_witness :
    (initPollData pollA).update_results = some (initPollData pollA) ∨
      (initPollData pollA = initPollData (initPollData pollA).poll ∧
        mapOpt (fun t => t.metric.calculate_progress (initPollData pollA).responses)
          (initPollData pollA).poll.metric_trackers =
          some (initPollData pollA).progresses) := by
  have h := Reachable.create [] none pollA Reachable.empty
  rw [new_poll_nil] at h
  exact reachable_derived_consistent [(1, initPollData pollA)] h 1
    (initPollData pollA) (by decide)

/-- C10: a `submit` call that returns leaves every other key's
`PollData` unchanged and never changes the target poll's `Poll` (its
title, description, expiration, announcement, status, questions,
trackers and results); only the target's responses, progresses and
result_states can change. -/
theorem submit_frame (db db2 : Db) (disk disk2 : Disk) (poll_id : Nat)
    (user : String) (responses : List FormResponse)
    (res : PollSubmissionResult)
    (h : submit db disk poll_id user responses = some (db2, disk2, res)) :
    (∀ k, k ≠ poll_id → lookupDb db2 k = lookupDb db k) ∧
      (∀ pd pd2, lookupDb db poll_id = some pd →
        lookupDb db2 poll_id = some pd2 → pd2.poll = pd.poll) := by
  unfold submit at h
  by_cases hp : (lookupDb db poll_id).isSome
  · rw [if_pos hp] at h
    cases hup : updateEntry db poll_id (fun pd0 =>
        PollData.update_results
          { pd0 with responses := upsert pd0.responses user responses }) with
    | none => rw [hup] at h; simp at h
    | some db3 =>
      rw [hup] at h
      simp only [Option.map_some', Option.some.injEq, Prod.mk.injEq] at h
      obtain ⟨h1, -, -⟩ := h
      subst h1
      constructor
      · intro k hk
        exact updateEntry_lookup_ne db db3 poll_id k _ hup hk
      · intro pd pd2 hpd hpd2
        obtain ⟨pd0, pd2b, hl0, hf, hl2⟩ := updateEntry_lookup_eq db db3 poll_id _ hup
        rw [hl0] at hpd
        injection hpd with hpd
        subst hpd
        rw [hl2] at hpd2
        injection hpd2 with hpd2
        subst hpd2
        obtain ⟨hpoll, -, -, -⟩ := update_results_fields _ _ hf
        exact hpoll
  · rw [if_neg hp] at h
    simp only [Option.some.injEq, Prod.mk.injEq] at h
    obtain ⟨h1, -, -⟩ := h
    subst h1
    refine ⟨fun k _ => rfl, fun pd pd2 hpd hpd2 => ?_⟩
    rw [hpd] at hpd2
    injection hpd2 with h2
    rw [h2]

/-- Witness for C10: the submission of user "u" to `dbA` leaves key 5
unchanged and preserves the target poll. -/
theorem submit_frame_witness :
    lookupDb dbA2 5 = lookupDb dbA 5 ∧ pdA2.poll = (initPollData pollA).poll :=
  have h : submit dbA none 1 "u" [FormResponse.ChooseOne (Choice.Index 0)] =
      some (dbA2, Db.write dbA2, PollSubmissionResult.Success) := by decide
  ⟨(submit_frame dbA dbA2 none (Db.write dbA2) 1 "u"
      [FormResponse.ChooseOne (Choice.Index 0)]
      PollSubmissionResult.Success h).1 5 (by decide),
   (submit_frame dbA dbA2 none (Db.write dbA2) 1 "u"
      [FormResponse.ChooseOne (Choice.Index 0)]
      PollSubmissionResult.Success h).2
      (initPollData pollA) pdA2 (by decide) (by decide)⟩
